import Mathlib

/-!
Shallow embedding of the dagit partition-health core
(`src/js_modules/dagit/packages/core/src/assets/AssetPartitions.tsx`,
which bundles the `AssetPartitions` component and the
`usePartitionHealthData` module).

JavaScript values that flow through the index are modelled by `JsVal`
(`undefined`, a `PartitionState` string, or a plain object held as an
insertion-ordered entry list, deduplicated the way `Object.fromEntries`
deduplicates).  Code that can throw is modelled in `Except JsErr`.
`mergedStates` and `isTimeseriesPartition` live in
`MultipartitioningSupport.tsx`, which is not part of the provided source;
they are modelled from the specification and marked as such.
-/

namespace DagsterPartitions

/-- `PartitionState` from `partitions/PartitionStatus`: the three members the
partition-health core uses. -/
inductive PartitionState where
  | missing
  | success
  | successMissing
deriving DecidableEq

/-- Errors a query can surface.  `typeError` models a JavaScript `TypeError`
raised by indexing into `undefined`; `unsupported` models
`throw new Error(...)` in `stateForSingleDimension`; `invalidArgument` is the
spec's name for the StateMerger empty-input failure; `notFound` is the spec's
taxonomy name for a failed full-key lookup and is never produced by the code
(it exists so that statements about the spec's claimed behavior can be
written down). -/
inductive JsErr where
  | typeError
  | invalidArgument
  | notFound
  | unsupported (msg : String)
deriving DecidableEq

/-- A JavaScript value reachable inside `stateByKey`: `undefined`, a
`PartitionState` enum string, or an object (entry list in insertion order,
keys unique as `Object.fromEntries` guarantees). -/
inductive JsVal where
  | undef
  | state (s : PartitionState)
  | obj (entries : List (String × JsVal))

/-- One partitioning dimension: `{name, partitionKeys}`. -/
structure Dimension where
  name : String
  partitionKeys : List String

/-- The two shapes of the raw counts payload
(`MaterializationCountSingleDimension` / `...GroupedByDimension`). -/
inductive Counts where
  | single (materializationCounts : List Int)
  | grouped (materializationCountsGrouped : List (List Int))

/-- `count > 0 ? PartitionState.SUCCESS : PartitionState.MISSING`. -/
def stateOf (c : Int) : PartitionState :=
  if c > 0 then .success else .missing

/-- Abbreviation for the state value computed from one raw count. -/
abbrev stateVal (c : Int) : JsVal := .state (stateOf c)

/-- One step of `Object.fromEntries`: a later entry with an existing key
overwrites that key's value in place; a new key is appended. -/
def insertEntry (acc : List (String × JsVal)) (e : String × JsVal) :
    List (String × JsVal) :=
  if acc.any (fun e2 => e2.1 == e.1) then
    acc.map (fun e2 => if e2.1 == e.1 then (e2.1, e.2) else e2)
  else
    acc ++ [e]

/-- `Object.fromEntries`: builds the object entry list, keys unique, first
occurrence keeps its position, last occurrence keeps its value. -/
def fromEntries (es : List (String × JsVal)) : List (String × JsVal) :=
  es.foldl insertEntry []

/-- Property lookup on an object entry list (keys are unique after
`fromEntries`, so the first match is the only match). -/
def objGet (es : List (String × JsVal)) (k : String) : Option JsVal :=
  (es.find? (fun e => e.1 == k)).map Prod.snd

/-- JavaScript property access `v[k]` as used by the index walks: reading a
property of an object yields the stored value or `undefined`; reading a
property of `undefined` throws a `TypeError`; reading a property of a
`PartitionState` string yields `undefined` for the property names that occur
here (single-character extraction of the enum string is not modelled; no
query reached by a key sequence of length at most the dimension count ever
indexes into a state string). -/
def jsIndexVal : JsVal → String → Except JsErr JsVal
  | .obj es, k => .ok ((objGet es k).getD .undef)
  | .state _, _ => .ok .undef
  | .undef, _ => .error .typeError

/-- `Object.values(v)` (values of a state string, i.e. its characters, are
not modelled; that call is never reached by in-contract queries). -/
def jsValues : JsVal → Except JsErr (List JsVal)
  | .obj es => .ok (es.map Prod.snd)
  | .state _ => .ok []
  | .undef => .error .typeError

/-- `Object.entries(v)`. -/
def jsEntries : JsVal → Except JsErr (List (String × JsVal))
  | .obj es => .ok es
  | .state _ => .ok []
  | .undef => .error .typeError

/-- `counts.map((count, idx) => [keys[idx], f(count)])`: the counts array
drives the iteration; an out-of-range key index is JavaScript `undefined`,
which `Object.fromEntries` stringifies to the property key `"undefined"`. -/
def zipWithKeys {α : Type} (keys : List String) (xs : List α) (f : α → JsVal) :
    List (String × JsVal) :=
  match xs, keys with
  | [], _ => []
  | x :: xs, k :: ks => (k, f x) :: zipWithKeys ks xs f
  | x :: xs, [] => ("undefined", f x) :: zipWithKeys [] xs f

/-- `stateByKey` construction, single-dimension payload:
`counts.materializationCounts.map((count, idx) =>
  [dimensions[0].partitionKeys[idx], count > 0 ? SUCCESS : MISSING])`.
Accessing `dimensions[0].partitionKeys` throws a `TypeError` when
`dimensions` is empty, which only happens when at least one count element is
mapped. -/
def buildSingle (dims : List Dimension) (cs : List Int) : Except JsErr JsVal :=
  match cs, dims.get? 0 with
  | [], _ => .ok (.obj [])
  | _ :: _, none => .error .typeError
  | _, some d0 =>
      .ok (.obj (fromEntries
        (zipWithKeys d0.partitionKeys cs (fun c => .state (stateOf c)))))

/-- `stateByKey` construction, grouped payload:
`counts.materializationCountsGrouped.map((dim0, idx0) =>
  [dimensions[0].partitionKeys[idx0],
   Object.fromEntries(dim0.map((count, idx1) =>
     [dimensions[1].partitionKeys[idx1], count > 0 ? SUCCESS : MISSING]))])`.
`dimensions[1]` is only dereferenced when some inner row is non-empty. -/
def buildGrouped (dims : List Dimension) (css : List (List Int)) :
    Except JsErr JsVal :=
  match css, dims.get? 0 with
  | [], _ => .ok (.obj [])
  | _ :: _, none => .error .typeError
  | _, some d0 =>
      if css.any (fun r => !r.isEmpty) && (dims.get? 1).isNone then
        .error .typeError
      else
        .ok (.obj (fromEntries (zipWithKeys d0.partitionKeys css
          (fun row => .obj (fromEntries (zipWithKeys
            (((dims.get? 1).map Dimension.partitionKeys).getD []) row
            (fun c => .state (stateOf c))))))))

/-- The `stateByKey` object built by `loadPartitionHealthData`, discriminated
on the payload shape tag. -/
def buildStateByKey (dims : List Dimension) : Counts → Except JsErr JsVal
  | .single cs => buildSingle dims cs
  | .grouped css => buildGrouped dims css

/-- The queryable per-asset index (`PartitionHealthData` minus the asset key,
which plays no role in the queries). -/
structure PartitionHealthData where
  dimensions : List Dimension
  stateByKey : JsVal

/-- `loadPartitionHealthData`, modulo the transport layer: from the dimension
list and the counts payload, build `stateByKey` and package the index.  The
function performs no validation of its own. -/
def loadPartitionHealthData (dims : List Dimension) (counts : Counts) :
    Except JsErr PartitionHealthData := do
  let sbk ← buildStateByKey dims counts
  pure ⟨dims, sbk⟩

/-- `stateForKey = (dimensionKeys) =>
  dimensionKeys.reduce((counts, dimensionKey) => counts[dimensionKey],
                       stateByKey)`. -/
def stateForKey (sbk : JsVal) (dimensionKeys : List String) :
    Except JsErr JsVal :=
  dimensionKeys.foldlM jsIndexVal sbk

/-- Modelled from the spec: `mergedStates` (the StateMerger) lives in
`MultipartitioningSupport.tsx`, which is not part of the provided source.
Per the spec: every input `MISSING` gives `MISSING`, every input `SUCCESS`
gives `SUCCESS`, any mixture collapses to `SUCCESS_MISSING`, and an empty
input fails with `InvalidArgument`.  The call sites hand it JavaScript
values, so it is typed over `JsVal`; in-contract calls only ever pass
genuine states. -/
def mergedStates (states : List JsVal) : Except JsErr JsVal :=
  match states with
  | [] => .error .invalidArgument
  | _ =>
      if states.all (fun v => match v with | .state .missing => true | _ => false) then
        .ok (.state .missing)
      else if states.all (fun v => match v with | .state .success => true | _ => false) then
        .ok (.state .success)
      else
        .ok (.state .successMissing)

/-- `stateForPartialKey = (dimensionKeys) =>
  dimensionKeys.length === dimensions.length
    ? stateForKey(dimensionKeys)
    : mergedStates(Object.values(stateByKey[dimensionKeys[0]]))`
(`dimensionKeys[0]` of an empty list is `undefined`, which property access
stringifies to `"undefined"`). -/
def stateForPartialKey (dims : List Dimension) (sbk : JsVal)
    (dimensionKeys : List String) : Except JsErr JsVal :=
  if dimensionKeys.length = dims.length then
    stateForKey sbk dimensionKeys
  else do
    let v ← jsIndexVal sbk ((dimensionKeys.get? 0).getD "undefined")
    let vs ← jsValues v
    mergedStates vs

/-- The entry filter of `stateForSingleDimension`:
`!withinParentDimensions || withinParentDimensions.includes(key)`. -/
def parentFilter (withinParentDimensions : Option (List String))
    (key : String) : Bool :=
  match withinParentDimensions with
  | none => true
  | some ps => ps.contains key

/-- `stateForSingleDimension(dimensionIdx, dimensionKey,
withinParentDimensions?)`: index 0 delegates to `stateForPartialKey`;
index 1 merges, over the `stateByKey` entries (filtered to
`withinParentDimensions` when supplied), each entry's value at
`dimensionKey`; any other index throws
`new Error('stateForSingleDimension asked for third dimension')`. -/
def stateForSingleDimension (dims : List Dimension) (sbk : JsVal)
    (dimensionIdx : Nat) (dimensionKey : String)
    (withinParentDimensions : Option (List String)) : Except JsErr JsVal :=
  if dimensionIdx = 0 then
    stateForPartialKey dims sbk [dimensionKey]
  else if dimensionIdx = 1 then do
    let es ← jsEntries sbk
    let filtered := es.filter (fun e => parentFilter withinParentDimensions e.1)
    let vals ← filtered.mapM (fun e => jsIndexVal e.2 dimensionKey)
    mergedStates vals
  else
    .error (.unsupported "stateForSingleDimension asked for third dimension")

/-! The `AssetPartitions` component layer. -/

/-- Modelled from the spec: `isTimeseriesPartition` lives in
`MultipartitioningSupport.tsx`, which is not part of the provided source.
Per the spec, a dimension is time-ordered when its first key parses as a
structured calendar/time token; modelled as the key starting with an ISO
`YYYY-MM-DD` date.  A JavaScript `undefined` argument (empty key list or
empty selection) is not a time token; callers hand that case in as `""`. -/
def isTimeseriesPartition (key : String) : Bool :=
  match key.toList with
  | y1 :: y2 :: y3 :: y4 :: '-' :: m1 :: m2 :: '-' :: d1 :: d2 :: _ =>
      y1.isDigit && y2.isDigit && y3.isDigit && y4.isDigit &&
        m1.isDigit && m2.isDigit && d1.isDigit && d2.isDigit
  | _ => false

/-- `PartitionHealthDimensionRange`. -/
structure PartitionHealthDimensionRange where
  dimension : Dimension
  selected : List String

/-- `ranges.findIndex((r) => isTimeseriesPartition(r.dimension.partitionKeys[0]))`
followed by the `ranges[timeRangeIdx]` read: the first time-ordered range,
if any (`partitionKeys[0]` of an empty key list is `undefined`, not a time
token). -/
def timeRangeOf (ranges : List PartitionHealthDimensionRange) :
    Option PartitionHealthDimensionRange :=
  ranges.find? (fun r => isTimeseriesPartition (r.dimension.partitionKeys.headD ""))

/-- `dimensionKeysOrdered`: a time-ordered selection is displayed
most-recent-first (reversed); any other selection in natural order
(`selected[0]` of an empty selection is `undefined`, not a time token). -/
def dimensionKeysOrdered (range : PartitionHealthDimensionRange) : List String :=
  if isTimeseriesPartition (range.selected.headD "") then
    range.selected.reverse
  else
    range.selected

/-- JavaScript `s.split('|')`, expressed over the character list (the
separator is a single character, so the character-level split coincides with
the string-level one). -/
def splitBar (s : String) : List String :=
  (s.toList.splitOn '|').map List.asString

/-- `focusedDimensionKeys`: `params.partition` absent or `""` (falsy) gives
no focus; with more than one range the string is split on `"|"` and empty
pieces dropped (`.filter(Boolean)`); with one range the whole string is a
single key (the separator is legal inside 1-D keys). -/
def focusedDimensionKeysOf (rangesLength : Nat) (partition : Option String) :
    List String :=
  match partition with
  | none => []
  | some p =>
      if p = "" then []
      else if rangesLength > 1 then (splitBar p).filter (fun s => s != "")
      else [p]

/-- A displayed row: `{dimensionKey, state}` (the state is the raw
JavaScript value the health getters return). -/
structure PartitionRow where
  dimensionKey : String
  state : JsVal

/-- `stateFilters.includes(row.state)`: only a genuine `PartitionState`
can be a member of the filter list. -/
def matchesFilter (stateFilters : List PartitionState) : JsVal → Bool
  | .state s => stateFilters.contains s
  | _ => false

/-- JavaScript array indexing with a possibly negative index
(`ranges[idx - 1]` is `undefined` when `idx` is `0`). -/
def jsIdx {α : Type} (l : List α) (i : Int) : Option α :=
  if i < 0 then none else l.get? i.toNat

/-- The per-key state computation inside `dimensionRowsForRange`:
`focusedDimensionKeys.length >= idx
  ? assetHealth.stateForPartialKey([...focusedDimensionKeys.slice(0, idx), dimensionKey])
  : assetHealth.stateForSingleDimension(idx, dimensionKey, ranges[idx - 1]?.selected)`. -/
def rowState (health : PartitionHealthData) (focused : List String)
    (ranges : List PartitionHealthDimensionRange) (idx : Nat)
    (dimensionKey : String) : Except JsErr JsVal :=
  if idx ≤ focused.length then
    stateForPartialKey health.dimensions health.stateByKey
      (focused.take idx ++ [dimensionKey])
  else
    stateForSingleDimension health.dimensions health.stateByKey idx dimensionKey
      ((jsIdx ranges ((idx : Int) - 1)).map PartitionHealthDimensionRange.selected)

/-- The map-and-filter body of `dimensionRowsForRange` (everything after the
time-range short-circuit). -/
def rowsCore (health : PartitionHealthData) (stateFilters : List PartitionState)
    (ranges : List PartitionHealthDimensionRange) (focused : List String)
    (range : PartitionHealthDimensionRange) (idx : Nat) :
    Except JsErr (List PartitionRow) := do
  let rows ← (dimensionKeysOrdered range).mapM (fun k => do
    let st ← rowState health focused ranges idx k
    pure (PartitionRow.mk k st))
  pure (rows.filter (fun r => matchesFilter stateFilters r.state))

/-- `dimensionRowsForRange(range, idx)`: if the first time-ordered range
exists and its selection is empty, every dimension's row list is `[]`;
otherwise map the displayed keys to rows and filter by the state filters. -/
def dimensionRowsForRange (health : PartitionHealthData)
    (stateFilters : List PartitionState)
    (ranges : List PartitionHealthDimensionRange) (focused : List String)
    (range : PartitionHealthDimensionRange) (idx : Nat) :
    Except JsErr (List PartitionRow) :=
  match timeRangeOf ranges with
  | some tr =>
      if tr.selected.isEmpty then .ok []
      else rowsCore health stateFilters ranges focused range idx
  | none => rowsCore health stateFilters ranges focused range idx

/-- The default focus for dimension `ii` when it was never explicitly
focused: `dimensionKeysOrdered(ranges[ii])[0]` (an out-of-range `ii` never
occurs in the component, where `ii < idx < ranges.length`). -/
def defaultFocusKey (ranges : List PartitionHealthDimensionRange) (ii : Nat) :
    Option String :=
  (ranges.get? ii).bind (fun r => (dimensionKeysOrdered r).head?)

/-- The `setFocusedDimensionKey` callback (lines 162-176): for each
dimension before `idx`, keep the focused key when it is truthy, else default
to the first displayed key (possibly JavaScript `undefined`, modelled as
`none`); then append the newly chosen key when it is truthy.  Entries beyond
`idx` are dropped because the vector is rebuilt from scratch. -/
def setFocusedDimensionKey (ranges : List PartitionHealthDimensionRange)
    (focused : List String) (idx : Nat) (dimensionKey : String) :
    List (Option String) :=
  let pre := (List.range idx).map (fun ii =>
    match focused.get? ii with
    | some f => if f = "" then defaultFocusKey ranges ii else some f
    | none => defaultFocusKey ranges ii)
  if dimensionKey = "" then pre else pre ++ [some dimensionKey]

/-- `nextFocusedDimensionKeys.join('|')` (line 174), for the serialized
focus string the component stores in the URL params. -/
def joinFocus (keys : List String) : String :=
  String.intercalate "|" keys

/-! The `usePartitionHealthData` hook, as a step relation.  Asset keys are
compared through `JSON.stringify`, i.e. by string value; the model carries
the JSON strings directly.  `React.useMemo` re-runs its body exactly when
its dependency (the first requested-but-unresolved key, `missingKeyJSON`)
differs from the memoized one; the body fires one fetch for that key.  A
fetch completion (`setResult`) appends the loaded key to `result`. -/

/-- `missingKeyJSON`: the first requested key not yet in `result`. -/
def missingKey (result : List String) (keys : List String) : Option String :=
  keys.find? (fun k => !result.contains k)

/-- The hook's observable state: resolved keys (`result`), the memoized
`missingKeyJSON` dependency (`none` while the memo has never run), and the
histories of issued fetches and completions. -/
structure HookState where
  result : List String
  memoDep : Option (Option String)
  fetches : List String
  completions : List String
deriving DecidableEq

/-- The initial hook state. -/
def initHook : HookState := ⟨[], none, [], []⟩

/-- Events driving the hook: a render with a requested asset-key list, or
the completion of an issued fetch. -/
inductive HookEvent where
  | render (assetKeys : List String)
  | complete (key : String)

/-- One step of the hook: a render recomputes `missingKeyJSON` and, when it
differs from the memoized dependency, re-runs the memo body, which fires one
fetch for the missing key (or nothing when every key is resolved); a
completion of an outstanding fetch appends its key to `result`. -/
def hookStep (s : HookState) : HookEvent → HookState
  | .render keys =>
      let missing := missingKey s.result keys
      if s.memoDep = some missing then s
      else
        { s with
          memoDep := some missing
          fetches := s.fetches ++ (match missing with | some k => [k] | none => []) }
  | .complete k =>
      if s.completions.count k < s.fetches.count k then
        { s with completions := s.completions ++ [k], result := s.result ++ [k] }
      else s

/-- Run the hook over an event trace. -/
def hookRun (es : List HookEvent) : HookState :=
  es.foldl hookStep initHook

/-- Number of fetches for `k` that have been issued but not completed. -/
def outstandingFetches (s : HookState) (k : String) : Nat :=
  s.fetches.count k - s.completions.count k

/-! Concrete instances used by the example-level theorems below. -/

/-- The index built from the 1-dimension payload with keys `["a"]` and
counts `[1]`. -/
def exHealth1 : PartitionHealthData :=
  ⟨[⟨"d", ["a"]⟩], .obj [("a", .state .success)]⟩

/-- The index built from dimensions `["a","b"] × ["x","y"]` and grouped
counts `[[1,0],[0,0]]`. -/
def exHealth4 : PartitionHealthData :=
  ⟨[⟨"d0", ["a", "b"]⟩, ⟨"d1", ["x", "y"]⟩],
    .obj [("a", .obj [("x", .state .success), ("y", .state .missing)]),
          ("b", .obj [("x", .state .missing), ("y", .state .missing)])]⟩

/-- Two time-ordered dimensions: `["2022-01-01"] × ["2022-02-01"]` with one
recorded materialization. -/
def exDims6 : List Dimension :=
  [⟨"date0", ["2022-01-01"]⟩, ⟨"date1", ["2022-02-01"]⟩]

/-- The index built from `exDims6` and grouped counts `[[1]]`. -/
def exHealth6 : PartitionHealthData :=
  ⟨exDims6, .obj [("2022-01-01", .obj [("2022-02-01", .state .success)])]⟩

/-- The dimension-0 range over `exDims6`, everything selected. -/
def exRange60 : PartitionHealthDimensionRange :=
  ⟨⟨"date0", ["2022-01-01"]⟩, ["2022-01-01"]⟩

/-- The dimension-1 range over `exDims6`: time-ordered, empty selection. -/
def exRange61 : PartitionHealthDimensionRange :=
  ⟨⟨"date1", ["2022-02-01"]⟩, []⟩

/-- Two ranges with everything selected, for the focus-navigation
examples. -/
def exRanges7 : List PartitionHealthDimensionRange :=
  [⟨⟨"d0", ["a", "b"]⟩, ["a", "b"]⟩, ⟨⟨"d1", ["x", "y"]⟩, ["x", "y"]⟩]

/-! Shared lemmas about the embedding. -/

/-- Packaging step of `loadPartitionHealthData` once `stateByKey` is
built. -/
theorem load_ok (dims : List Dimension) (counts : Counts) (sbk : JsVal)
    (h : buildStateByKey dims counts = .ok sbk) :
    loadPartitionHealthData dims counts = .ok ⟨dims, sbk⟩ := by
  unfold loadPartitionHealthData
  rw [h]
  rfl

/-- With at least as many keys as counts-driven entries of equal length,
the positional pairing is `List.zip`. -/
theorem zipWithKeys_eq_zip {α : Type} (keys : List String) (xs : List α)
    (f : α → JsVal) (h : xs.length = keys.length) :
    zipWithKeys keys xs f = keys.zip (xs.map f) := by
  induction xs generalizing keys with
  | nil => cases keys <;> simp [zipWithKeys]
  | cons x xs ih =>
      cases keys with
      | nil => simp at h
      | cons k ks =>
          simp only [List.length_cons, Nat.succ.injEq] at h
          simp [zipWithKeys, List.zip_cons_cons, ih ks h]

/-- Folding `insertEntry` over entries whose keys are distinct just appends
them. -/
theorem foldl_insertEntry (es acc : List (String × JsVal))
    (h : ((acc ++ es).map Prod.fst).Nodup) :
    es.foldl insertEntry acc = acc ++ es := by
  induction es generalizing acc with
  | nil => simp
  | cons e es ih =>
      have hnotin : e.1 ∉ acc.map Prod.fst := by
        intro hmem
        rw [List.map_append] at h
        have := (List.nodup_append.mp h).2.2
        exact this hmem (by simp)
      have hany : acc.any (fun e2 => e2.1 == e.1) = false := by
        rw [List.any_eq_false]
        intro x hx
        simp only [beq_iff_eq]
        intro heq
        exact hnotin (heq ▸ List.mem_map_of_mem Prod.fst hx)
      have harr : acc ++ e :: es = (acc ++ [e]) ++ es := by simp
      rw [List.foldl_cons, insertEntry, hany]
      simp only [Bool.false_eq_true, if_false]
      rw [ih (acc ++ [e]) (by rw [← harr]; exact h), harr]

/-- `Object.fromEntries` of an entry list with pairwise-distinct keys is the
identity. -/
theorem fromEntries_nodup (es : List (String × JsVal))
    (h : (es.map Prod.fst).Nodup) : fromEntries es = es := by
  simpa using foldl_insertEntry es [] (by simpa using h)

/-- Looking the `i`-th key up in a zipped object yields the `i`-th value
when the keys are distinct. -/
theorem objGet_zip_get (keys : List String) (vals : List JsVal)
    (hnd : keys.Nodup) (i : Nat) (hi : i < keys.length) :
    objGet (keys.zip vals) (keys.get ⟨i, hi⟩) = vals.get? i := by
  induction keys generalizing vals i with
  | nil => simp at hi
  | cons k ks ih =>
      cases vals with
      | nil =>
          cases i <;> simp [objGet]
      | cons v vs =>
          cases i with
          | zero => simp [objGet, List.zip_cons_cons]
          | succ j =>
              have hj : j < ks.length := Nat.lt_of_succ_lt_succ hi
              have hne : k ≠ ks.get ⟨j, hj⟩ := by
                intro heq
                exact (List.nodup_cons.mp hnd).1 (heq ▸ List.get_mem ks j hj)
              have := ih vs (List.nodup_cons.mp hnd).2 j hj
              simp only [List.zip_cons_cons, List.get_cons_succ, objGet,
                List.find?_cons] at *
              rw [show (((k, v).1 == ks.get ⟨j, hj⟩) : Bool) = false from
                beq_eq_false_iff_ne.mpr hne]
              exact this

/-- Looking an absent key up in a zipped object yields nothing. -/
theorem objGet_zip_not_mem (keys : List String) (vals : List JsVal)
    (k : String) (hk : k ∉ keys) :
    objGet (keys.zip vals) k = none := by
  induction keys generalizing vals with
  | nil => simp [objGet]
  | cons k0 ks ih =>
      cases vals with
      | nil => simp [objGet]
      | cons v vs =>
          have h1 : k0 ≠ k := fun heq => hk (heq ▸ List.mem_cons_self k0 ks)
          have h2 : k ∉ ks := fun hmem => hk (List.mem_cons_of_mem k0 hmem)
          simp only [List.zip_cons_cons, objGet, List.find?_cons]
          rw [show (((k0, v).1 == k) : Bool) = false from beq_eq_false_iff_ne.mpr h1]
          exact ih vs h2

/-- `mapM` over a mapped list whose elements all succeed. -/
theorem mapM_map_ok {α β γ : Type} (l : List α) (g : α → β)
    (f : β → Except JsErr γ) (h : α → γ)
    (hp : ∀ x ∈ l, f (g x) = .ok (h x)) :
    (l.map g).mapM f = .ok (l.map h) := by
  induction l with
  | nil => rfl
  | cons x xs ih =>
      rw [List.map_cons, List.mapM_cons, hp x (by simp),
        ih (fun y hy => hp y (by simp [hy])), List.map_cons]
      rfl

/-- Pointwise-equal effectful maps agree. -/
theorem mapM_congr {α β : Type} (l : List α) (f g : α → Except JsErr β)
    (h : ∀ x ∈ l, f x = g x) : l.mapM f = l.mapM g := by
  induction l with
  | nil => rfl
  | cons x xs ih =>
      rw [List.mapM_cons, List.mapM_cons, h x (by simp),
        ih (fun y hy => h y (by simp [hy]))]

/-- `buildSingle` with a present dimension 0, before deduplication. -/
theorem buildSingle_eq (dims : List Dimension) (d0 : Dimension)
    (h0 : dims.get? 0 = some d0) (cs : List Int) :
    buildSingle dims cs =
      .ok (.obj (fromEntries (zipWithKeys d0.partitionKeys cs stateVal))) := by
  rw [buildSingle.eq_def, h0]
  cases cs <;> rfl

/-- `buildGrouped` with both dimensions present, before deduplication. -/
theorem buildGrouped_eq (dims : List Dimension) (d0 d1 : Dimension)
    (h0 : dims.get? 0 = some d0) (h1 : dims.get? 1 = some d1)
    (css : List (List Int)) :
    buildGrouped dims css =
      .ok (.obj (fromEntries (zipWithKeys d0.partitionKeys css
        (fun row => .obj (fromEntries (zipWithKeys d1.partitionKeys row stateVal)))))) := by
  rw [buildGrouped.eq_def, h0, h1]
  cases css with
  | nil => rfl
  | cons r rs => simp

/-- Canonical form of a well-formed single-dimension `stateByKey`. -/
theorem stateByKey_single (dims : List Dimension) (d0 : Dimension)
    (h0 : dims.get? 0 = some d0) (cs : List Int)
    (hlen : cs.length = d0.partitionKeys.length)
    (hnd : d0.partitionKeys.Nodup) :
    buildSingle dims cs =
      .ok (.obj (d0.partitionKeys.zip (cs.map stateVal))) := by
  rw [buildSingle_eq dims d0 h0 cs, zipWithKeys_eq_zip _ _ _ hlen,
    fromEntries_nodup]
  rw [List.map_fst_zip _ _ (by simp [hlen])]
  exact hnd

/-- Canonical form of a well-formed grouped `stateByKey`. -/
theorem stateByKey_grouped (dims : List Dimension) (d0 d1 : Dimension)
    (h0 : dims.get? 0 = some d0) (h1 : dims.get? 1 = some d1)
    (css : List (List Int))
    (hlen : css.length = d0.partitionKeys.length)
    (hrow : ∀ row ∈ css, row.length = d1.partitionKeys.length)
    (hnd0 : d0.partitionKeys.Nodup) (hnd1 : d1.partitionKeys.Nodup) :
    buildGrouped dims css =
      .ok (.obj (d0.partitionKeys.zip (css.map
        (fun row => .obj (d1.partitionKeys.zip (row.map stateVal)))))) := by
  rw [buildGrouped_eq dims d0 d1 h0 h1 css, zipWithKeys_eq_zip _ _ _ hlen,
    fromEntries_nodup]
  · congr 3
    apply List.map_congr_left
    intro row hrowmem
    rw [zipWithKeys_eq_zip _ _ _ (hrow row hrowmem), fromEntries_nodup]
    rw [List.map_fst_zip _ _ (by simp [hrow row hrowmem])]
    exact hnd1
  · rw [List.map_fst_zip _ _ (by simp [hlen])]
    exact hnd0

/-- One reduction step of the `stateForKey` walk on an object. -/
theorem stateForKey_cons_obj (es : List (String × JsVal)) (k : String)
    (rest : List String) :
    stateForKey (.obj es) (k :: rest) =
      stateForKey ((objGet es k).getD .undef) rest := rfl

/-- A construction error is always the `TypeError` of a missing dimension,
never anything else. -/
theorem buildStateByKey_error_typeError (dims : List Dimension)
    (counts : Counts) (e : JsErr) (h : buildStateByKey dims counts = .error e) :
    e = .typeError := by
  cases counts with
  | single cs =>
      rw [buildStateByKey, buildSingle.eq_def] at h
      split at h
      · exact Except.noConfusion h
      · injection h with h'
        exact h'.symm
      · exact Except.noConfusion h
  | grouped css =>
      rw [buildStateByKey, buildGrouped.eq_def] at h
      split at h
      · exact Except.noConfusion h
      · injection h with h'
        exact h'.symm
      · split at h
        · injection h with h'
          exact h'.symm
        · exact Except.noConfusion h

/-! Claim theorems. -/

/-- C1 (counterexample): on the 1-dimension index over key `"a"`, the
full-key lookup `stateForKey(["z"])` of the absent key `"z"` does not fail
with a `NotFound` error: it succeeds and returns JavaScript `undefined`. -/
theorem stateForKey_unknown_cex :
    loadPartitionHealthData [⟨"d", ["a"]⟩] (.single [1]) = .ok exHealth1 ∧
    stateForKey exHealth1.stateByKey ["z"] = .ok .undef ∧
    stateForKey exHealth1.stateByKey ["z"] ≠ .error .notFound :=
  ⟨rfl, rfl, fun h => Except.noConfusion h⟩

/-- C1 (amended): a full-length key sequence containing a key absent from
its dimension never produces a `PartitionState` — but there is no `NotFound`
error either.  On a well-formed 1-dimension index the lookup returns
`undefined`; on a well-formed 2-dimension index an unknown dimension-0 key
raises a `TypeError` (indexing into `undefined`), and a known dimension-0
key with an unknown dimension-1 key returns `undefined`. -/
theorem stateForKey_unknown_no_state :
    (∀ (name : String) (keys : List String) (cs : List Int),
        cs.length = keys.length → keys.Nodup →
        ∀ k, k ∉ keys →
          ∃ hd, loadPartitionHealthData [⟨name, keys⟩] (.single cs) = .ok hd ∧
            stateForKey hd.stateByKey [k] = .ok .undef) ∧
    (∀ (n0 n1 : String) (keys0 keys1 : List String) (css : List (List Int)),
        css.length = keys0.length →
        (∀ row ∈ css, row.length = keys1.length) →
        keys0.Nodup → keys1.Nodup →
        ∀ k0 k1, k0 ∉ keys0 →
          ∃ hd,
            loadPartitionHealthData [⟨n0, keys0⟩, ⟨n1, keys1⟩] (.grouped css) = .ok hd ∧
            stateForKey hd.stateByKey [k0, k1] = .error .typeError) ∧
    (∀ (n0 n1 : String) (keys0 keys1 : List String) (css : List (List Int)),
        css.length = keys0.length →
        (∀ row ∈ css, row.length = keys1.length) →
        keys0.Nodup → keys1.Nodup →
        ∀ (i : Nat) (hi : i < keys0.length) (k1 : String), k1 ∉ keys1 →
          ∃ hd,
            loadPartitionHealthData [⟨n0, keys0⟩, ⟨n1, keys1⟩] (.grouped css) = .ok hd ∧
            stateForKey hd.stateByKey [keys0.get ⟨i, hi⟩, k1] = .ok .undef) := by
  refine ⟨?_, ?_, ?_⟩
  · intro name keys cs hlen hnd k hk
    have hb := stateByKey_single [⟨name, keys⟩] ⟨name, keys⟩ rfl cs hlen hnd
    refine ⟨_, load_ok _ _ _ hb, ?_⟩
    rw [stateForKey_cons_obj, objGet_zip_not_mem keys _ k hk]
    rfl
  · intro n0 n1 keys0 keys1 css hlen hrow hnd0 hnd1 k0 k1 hk0
    have hb := stateByKey_grouped [⟨n0, keys0⟩, ⟨n1, keys1⟩] ⟨n0, keys0⟩
      ⟨n1, keys1⟩ rfl rfl css hlen hrow hnd0 hnd1
    refine ⟨_, load_ok _ _ _ hb, ?_⟩
    rw [stateForKey_cons_obj, objGet_zip_not_mem keys0 _ k0 hk0]
    rfl
  · intro n0 n1 keys0 keys1 css hlen hrow hnd0 hnd1 i hi k1 hk1
    have hb := stateByKey_grouped [⟨n0, keys0⟩, ⟨n1, keys1⟩] ⟨n0, keys0⟩
      ⟨n1, keys1⟩ rfl rfl css hlen hrow hnd0 hnd1
    refine ⟨_, load_ok _ _ _ hb, ?_⟩
    have hi' : i < css.length := by omega
    rw [stateForKey_cons_obj, objGet_zip_get keys0 _ hnd0 i hi]
    rw [List.get?_map, List.get?_eq_get hi']
    simp only [Option.map_some', Option.getD_some]
    rw [stateForKey_cons_obj, objGet_zip_not_mem keys1 _ k1 hk1]
    rfl

/-- C1 (witness): the amended statement applied to the 1-dimension index
over key `"a"` and the absent key `"z"`. -/
theorem stateForKey_unknown_no_state_witness :
    ∃ hd, loadPartitionHealthData [⟨"d", ["a"]⟩] (.single [1]) = .ok hd ∧
      stateForKey hd.stateByKey ["z"] = .ok .undef :=
  stateForKey_unknown_no_state.1 "d" ["a"] [1] rfl (by decide) "z" (by decide)

/-- C2 (counterexample): construction does not fail with `InvalidArgument`
on a counts payload whose outer length (1) differs from
`dimensions[0].partitionKeys.length` (2) — it returns an index pairing the
counts with the key prefix; and a 3-dimension index is not rejected — the
third dimension is silently ignored. -/
theorem load_validation_cex :
    loadPartitionHealthData [⟨"d0", ["a", "b"]⟩] (.single [1]) =
      .ok ⟨[⟨"d0", ["a", "b"]⟩], .obj [("a", .state .success)]⟩ ∧
    loadPartitionHealthData [⟨"d0", ["a", "b"]⟩] (.single [1]) ≠
      .error .invalidArgument ∧
    loadPartitionHealthData [⟨"d0", ["a"]⟩, ⟨"d1", ["x"]⟩, ⟨"d2", ["p"]⟩]
        (.grouped [[1]]) =
      .ok ⟨[⟨"d0", ["a"]⟩, ⟨"d1", ["x"]⟩, ⟨"d2", ["p"]⟩],
        .obj [("a", .obj [("x", .state .success)])]⟩ ∧
    loadPartitionHealthData [⟨"d0", ["a"]⟩, ⟨"d1", ["x"]⟩, ⟨"d2", ["p"]⟩]
        (.grouped [[1]]) ≠ .error .invalidArgument :=
  ⟨rfl, fun h => Except.noConfusion h, rfl, fun h => Except.noConfusion h⟩

/-- C2 (amended): index construction performs no validation and never
produces an `InvalidArgument` error: for every dimension list and counts
payload it either returns an index or raises the `TypeError` of
dereferencing a missing dimension; in particular the two malformed payloads
of the counterexample build indexes. -/
theorem load_no_validation :
    (∀ (dims : List Dimension) (counts : Counts),
        (∃ sbk, buildStateByKey dims counts = .ok sbk) ∨
          buildStateByKey dims counts = .error .typeError) ∧
    loadPartitionHealthData [⟨"d0", ["a", "b"]⟩] (.single [1]) =
      .ok ⟨[⟨"d0", ["a", "b"]⟩], .obj [("a", .state .success)]⟩ ∧
    loadPartitionHealthData [⟨"d0", ["a"]⟩, ⟨"d1", ["x"]⟩, ⟨"d2", ["p"]⟩]
        (.grouped [[1]]) =
      .ok ⟨[⟨"d0", ["a"]⟩, ⟨"d1", ["x"]⟩, ⟨"d2", ["p"]⟩],
        .obj [("a", .obj [("x", .state .success)])]⟩ := by
  refine ⟨?_, rfl, rfl⟩
  intro dims counts
  cases h : buildStateByKey dims counts with
  | ok sbk => exact Or.inl ⟨sbk, rfl⟩
  | error e =>
      have he := buildStateByKey_error_typeError dims counts e h
      exact Or.inr (by rw [he])

/-- C3: construction stores `SUCCESS` exactly for positive raw counts and
`MISSING` otherwise, for well-formed 1- and 2-dimension payloads; in
particular the payload `["a","b","c"] / [0,2,0]` yields
`stateForKey(["a"]) = MISSING` and `stateForKey(["b"]) = SUCCESS`. -/
theorem stateForKey_roundtrip :
    (∀ (name : String) (keys : List String) (cs : List Int),
        cs.length = keys.length → keys.Nodup →
        ∀ (i : Nat) (hi : i < keys.length),
          ∃ hd, loadPartitionHealthData [⟨name, keys⟩] (.single cs) = .ok hd ∧
            stateForKey hd.stateByKey [keys.get ⟨i, hi⟩] =
              .ok (.state (if cs.getD i 0 > 0 then .success else .missing))) ∧
    (∀ (n0 n1 : String) (keys0 keys1 : List String) (css : List (List Int)),
        css.length = keys0.length →
        (∀ row ∈ css, row.length = keys1.length) →
        keys0.Nodup → keys1.Nodup →
        ∀ (i j : Nat) (hi : i < keys0.length) (hj : j < keys1.length),
          ∃ hd,
            loadPartitionHealthData [⟨n0, keys0⟩, ⟨n1, keys1⟩] (.grouped css) = .ok hd ∧
            stateForKey hd.stateByKey [keys0.get ⟨i, hi⟩, keys1.get ⟨j, hj⟩] =
              .ok (.state (if (css.getD i []).getD j 0 > 0 then .success else .missing))) ∧
    (∃ hd,
        loadPartitionHealthData [⟨"default", ["a", "b", "c"]⟩] (.single [0, 2, 0]) =
          .ok hd ∧
        stateForKey hd.stateByKey ["a"] = .ok (.state .missing) ∧
        stateForKey hd.stateByKey ["b"] = .ok (.state .success)) := by
  refine ⟨?_, ?_, ?_⟩
  · intro name keys cs hlen hnd i hi
    have hb := stateByKey_single [⟨name, keys⟩] ⟨name, keys⟩ rfl cs hlen hnd
    refine ⟨_, load_ok _ _ _ hb, ?_⟩
    have hi' : i < cs.length := by omega
    rw [stateForKey_cons_obj, objGet_zip_get keys _ hnd i hi]
    rw [List.get?_map, List.get?_eq_get hi', List.getD_eq_get cs 0 hi']
    rfl
  · intro n0 n1 keys0 keys1 css hlen hrow hnd0 hnd1 i j hi hj
    have hb := stateByKey_grouped [⟨n0, keys0⟩, ⟨n1, keys1⟩] ⟨n0, keys0⟩
      ⟨n1, keys1⟩ rfl rfl css hlen hrow hnd0 hnd1
    refine ⟨_, load_ok _ _ _ hb, ?_⟩
    have hi' : i < css.length := by omega
    rw [stateForKey_cons_obj, objGet_zip_get keys0 _ hnd0 i hi]
    rw [List.get?_map, List.get?_eq_get hi']
    have hrowlen : (css.get ⟨i, hi'⟩).length = keys1.length :=
      hrow _ (List.get_mem css i hi')
    have hj' : j < (css.get ⟨i, hi'⟩).length := by omega
    simp only [Option.map_some', Option.getD_some]
    rw [stateForKey_cons_obj, objGet_zip_get keys1 _ hnd1 j hj]
    rw [List.get?_map, List.get?_eq_get hj']
    rw [List.getD_eq_get css [] hi', List.getD_eq_get _ 0 hj']
    rfl
  · exact ⟨⟨[⟨"default", ["a", "b", "c"]⟩],
      .obj [("a", .state .missing), ("b", .state .success), ("c", .state .missing)]⟩,
      rfl, rfl, rfl⟩

/-- C3 (witness): the 1-dimension clause applied to the spec's concrete
payload at index `1` (`"b"`, count `2`). -/
theorem stateForKey_roundtrip_witness :
    ∃ hd,
      loadPartitionHealthData [⟨"default", ["a", "b", "c"]⟩] (.single [0, 2, 0]) =
        .ok hd ∧
      stateForKey hd.stateByKey ["b"] = .ok (.state .success) :=
  stateForKey_roundtrip.1 "default" ["a", "b", "c"] [0, 2, 0] rfl (by decide)
    1 (by decide)

/-- C4: on a well-formed 2-dimension index, `stateForSingleDimension(1, k, P)`
is the StateMerger aggregate of exactly the states at `k` of the dimension-0
entries whose key passes the `P` filter (every entry when `P` is omitted);
with dimensions `["a","b"] × ["x","y"]` and grouped counts `[[1,0],[0,0]]`,
`stateForSingleDimension(1,"x")` is `SUCCESS_MISSING` and
`stateForSingleDimension(1,"x",["b"])` is `MISSING`. -/
theorem stateForSingleDimension_merges :
    (∀ (n0 n1 : String) (keys0 keys1 : List String) (css : List (List Int)),
        css.length = keys0.length →
        (∀ row ∈ css, row.length = keys1.length) →
        keys0.Nodup → keys1.Nodup →
        ∀ (j : Nat) (hj : j < keys1.length) (P : Option (List String)),
          ∃ hd,
            loadPartitionHealthData [⟨n0, keys0⟩, ⟨n1, keys1⟩] (.grouped css) = .ok hd ∧
            stateForSingleDimension hd.dimensions hd.stateByKey 1
                (keys1.get ⟨j, hj⟩) P =
              mergedStates (((keys0.zip css).filter (fun p => parentFilter P p.1)).map
                (fun p => .state (stateOf (p.2.getD j 0))))) ∧
    (loadPartitionHealthData [⟨"d0", ["a", "b"]⟩, ⟨"d1", ["x", "y"]⟩]
        (.grouped [[1, 0], [0, 0]]) = .ok exHealth4 ∧
      stateForSingleDimension exHealth4.dimensions exHealth4.stateByKey 1 "x" none =
        .ok (.state .successMissing) ∧
      stateForSingleDimension exHealth4.dimensions exHealth4.stateByKey 1 "x"
          (some ["b"]) =
        .ok (.state .missing)) := by
  refine ⟨?_, rfl, rfl, rfl⟩
  intro n0 n1 keys0 keys1 css hlen hrow hnd0 hnd1 j hj P
  have hb := stateByKey_grouped [⟨n0, keys0⟩, ⟨n1, keys1⟩] ⟨n0, keys0⟩
    ⟨n1, keys1⟩ rfl rfl css hlen hrow hnd0 hnd1
  refine ⟨_, load_ok _ _ _ hb, ?_⟩
  have hE : keys0.zip (css.map (fun row => JsVal.obj (keys1.zip (row.map stateVal)))) =
      (keys0.zip css).map (fun p => (p.1, JsVal.obj (keys1.zip (p.2.map stateVal)))) := by
    rw [List.zip_map_right]
    rfl
  have hunfold : stateForSingleDimension
      [⟨n0, keys0⟩, ⟨n1, keys1⟩]
      (.obj (keys0.zip (css.map (fun row => JsVal.obj (keys1.zip (row.map stateVal))))))
      1 (keys1.get ⟨j, hj⟩) P =
      ((keys0.zip (css.map (fun row => JsVal.obj (keys1.zip (row.map stateVal))))).filter
        (fun e => parentFilter P e.1)).mapM (fun e => jsIndexVal e.2 (keys1.get ⟨j, hj⟩))
        >>= mergedStates := rfl
  show stateForSingleDimension _ (.obj _) 1 _ P = _
  rw [hunfold, hE, List.filter_map]
  have hcomp : ((fun e => parentFilter P e.1) ∘
      (fun p : String × List Int => (p.1, JsVal.obj (keys1.zip (p.2.map stateVal))))) =
      fun p : String × List Int => parentFilter P p.1 := rfl
  rw [hcomp]
  rw [mapM_map_ok _ _ _ (fun p => JsVal.state (stateOf (p.2.getD j 0)))]
  · rfl
  · intro p hp
    have hmem : p ∈ keys0.zip css := List.mem_of_mem_filter hp
    have hrowmem : p.2 ∈ css := (List.of_mem_zip hmem).2
    have hrl : p.2.length = keys1.length := hrow _ hrowmem
    have hj' : j < p.2.length := by omega
    show jsIndexVal (.obj (keys1.zip (p.2.map stateVal))) (keys1.get ⟨j, hj⟩) = _
    rw [jsIndexVal, objGet_zip_get keys1 _ hnd1 j hj]
    rw [List.get?_map, List.get?_eq_get hj', List.getD_eq_get _ 0 hj']
    rfl

/-- C4 (witness): the general clause applied to the spec's concrete index at
dimension-1 key `"x"` scoped to parent `"b"`. -/
theorem stateForSingleDimension_merges_witness :
    ∃ hd,
      loadPartitionHealthData [⟨"d0", ["a", "b"]⟩, ⟨"d1", ["x", "y"]⟩]
          (.grouped [[1, 0], [0, 0]]) = .ok hd ∧
      stateForSingleDimension hd.dimensions hd.stateByKey 1 "x" (some ["b"]) =
        mergedStates [.state .missing] :=
  stateForSingleDimension_merges.1 "d0" "d1" ["a", "b"] ["x", "y"]
    [[1, 0], [0, 0]] rfl (by decide) (by decide) (by decide) 0 (by decide)
    (some ["b"])

/-- C5: `stateForSingleDimension` with any dimension index at least 2 fails
with the `Unsupported` error thrown as
`new Error('stateForSingleDimension asked for third dimension')` and never
returns a `PartitionState`, whatever the key and parent scoping. -/
theorem stateForSingleDimension_thirdDimension (dims : List Dimension)
    (sbk : JsVal) (dimensionIdx : Nat) (h : 2 ≤ dimensionIdx) (k : String)
    (wpd : Option (List String)) :
    stateForSingleDimension dims sbk dimensionIdx k wpd =
      .error (.unsupported "stateForSingleDimension asked for third dimension") := by
  have h0 : dimensionIdx ≠ 0 := by omega
  have h1 : dimensionIdx ≠ 1 := by omega
  simp [stateForSingleDimension, h0, h1]

/-- C5 (witness): dimension index `2` on the concrete 2-dimension index. -/
theorem stateForSingleDimension_thirdDimension_witness :
    stateForSingleDimension exHealth4.dimensions exHealth4.stateByKey 2 "x" none =
      .error (.unsupported "stateForSingleDimension asked for third dimension") :=
  stateForSingleDimension_thirdDimension exHealth4.dimensions
    exHealth4.stateByKey 2 (by decide) "x" none

/-- C6 (counterexample): with two time-ordered dimensions, the second one
having an empty selection, the row list of dimension 0 is not empty — the
short-circuit only inspects the first time-ordered range, so an empty
selection on a later time-ordered dimension does not empty every row
list. -/
theorem dimensionRows_shortCircuit_cex :
    loadPartitionHealthData exDims6 (.grouped [[1]]) = .ok exHealth6 ∧
    isTimeseriesPartition (exRange61.dimension.partitionKeys.headD "") = true ∧
    exRange61.selected = [] ∧
    dimensionRowsForRange exHealth6 [.missing, .successMissing, .success]
        [exRange60, exRange61] [] exRange60 0 =
      .ok [⟨"2022-01-01", .state .success⟩] ∧
    dimensionRowsForRange exHealth6 [.missing, .successMissing, .success]
        [exRange60, exRange61] [] exRange60 0 ≠ .ok [] :=
  ⟨rfl, rfl, rfl, rfl, fun h => List.noConfusion (Except.ok.inj h)⟩

/-- C6 (amended): when the *first* time-ordered range — the one
`ranges.findIndex(isTimeseriesPartition ∘ firstKey)` selects — has an empty
selection, the computed row list of every dimension is empty, regardless of
the other selections, the focus vector and the state filters. -/
theorem dimensionRows_shortCircuit (health : PartitionHealthData)
    (stateFilters : List PartitionState)
    (ranges : List PartitionHealthDimensionRange) (focused : List String)
    (range : PartitionHealthDimensionRange) (idx : Nat)
    (tr : PartitionHealthDimensionRange)
    (h : timeRangeOf ranges = some tr) (h2 : tr.selected = []) :
    dimensionRowsForRange health stateFilters ranges focused range idx = .ok [] := by
  simp [dimensionRowsForRange, h, h2]

/-- C6 (witness): a single time-ordered range with an empty selection
empties its own row list. -/
theorem dimensionRows_shortCircuit_witness :
    dimensionRowsForRange exHealth6 [.missing, .successMissing, .success]
      [exRange61] [] exRange61 0 = .ok [] :=
  dimensionRows_shortCircuit exHealth6 [.missing, .successMissing, .success]
    [exRange61] [] exRange61 0 exRange61 rfl rfl

/-- C7: selecting the truthy key `k` at dimension `idx` yields a focus
vector of length exactly `idx + 1` whose entry at `idx` is `k` and whose
entry at each `j < idx` is the previously focused key when one exists and
otherwise the first key of dimension `j`'s displayed order (the focus
entries produced by deserialization are never the empty string, which the
`||` default treats as absent). -/
theorem setFocusedDimensionKey_spec (ranges : List PartitionHealthDimensionRange)
    (focused : List String) (idx : Nat) (k : String)
    (hk : k ≠ "") (hfoc : ∀ s ∈ focused, s ≠ "") :
    (setFocusedDimensionKey ranges focused idx k).length = idx + 1 ∧
    (setFocusedDimensionKey ranges focused idx k).get? idx = some (some k) ∧
    ∀ j, j < idx →
      (setFocusedDimensionKey ranges focused idx k).get? j =
        some (match focused.get? j with
              | some f => some f
              | none => defaultFocusKey ranges j) := by
  unfold setFocusedDimensionKey
  rw [if_neg hk]
  set pre := (List.range idx).map (fun ii =>
    match focused.get? ii with
    | some f => if f = "" then defaultFocusKey ranges ii else some f
    | none => defaultFocusKey ranges ii) with hpre
  have hlen : pre.length = idx := by simp [hpre]
  refine ⟨by simp [hlen], ?_, ?_⟩
  · rw [← hlen, List.get?_concat_length]
  · intro j hj
    rw [List.get?_append (by simp [hlen, hj]), hpre, List.get?_map,
      List.get?_range hj, Option.map_some']
    congr 1
    cases hf : focused.get? j with
    | none => rfl
    | some f =>
        have : f ≠ "" := hfoc f (List.get?_mem hf)
        simp [this]

/-- C7 (witness): drilling into dimension 1 with dimension 0 never focused
pins dimension 0 to its first displayed key `"a"`. -/
theorem setFocusedDimensionKey_spec_witness :
    (setFocusedDimensionKey exRanges7 [] 1 "x").length = 2 ∧
    (setFocusedDimensionKey exRanges7 [] 1 "x").get? 1 = some (some "x") ∧
    (setFocusedDimensionKey exRanges7 [] 1 "x").get? 0 = some (some "a") := by
  obtain ⟨h1, h2, h3⟩ :=
    setFocusedDimensionKey_spec exRanges7 [] 1 "x" (by decide) (by simp)
  exact ⟨h1, h2, h3 0 (by decide)⟩

/-- C8 (counterexample): alternating the requested key set (`["A"]`, then
`["B"]`, then `["A"]` again) while the first fetch for `"A"` is still
outstanding re-runs the memo — its `missingKeyJSON` dependency changed each
time — and issues a second fetch for `"A"`, so two fetches for the same
asset key are outstanding in a reachable state. -/
theorem hookRender_dedup_cex :
    (hookRun [.render ["A"], .render ["B"], .render ["A"]]).fetches =
      ["A", "B", "A"] ∧
    (hookRun [.render ["A"], .render ["B"], .render ["A"]]).completions = [] ∧
    outstandingFetches (hookRun [.render ["A"], .render ["B"], .render ["A"]]) "A" = 2 :=
  ⟨rfl, rfl, rfl⟩

/-- C8 (amended): re-rendering with an unchanged requested key list is a
no-op — the memoized `missingKeyJSON` dependency is unchanged — so
requesting the same unresolved asset key twice in a row triggers exactly one
fetch; the at-most-one-outstanding-fetch-per-key invariant, however, only
holds for consecutive equal requests, not across key-set changes (see the
counterexample). -/
theorem hookRender_dedup :
    (∀ (s : HookState) (ks : List String),
        hookStep (hookStep s (.render ks)) (.render ks) = hookStep s (.render ks)) ∧
    (∀ (ks : List String) (k : String), missingKey [] ks = some k →
        (hookRun [.render ks, .render ks]).fetches = [k]) := by
  constructor
  · intro s ks
    by_cases h : s.memoDep = some (missingKey s.result ks)
    · simp [hookStep, h]
    · simp [hookStep, h]
  · intro ks k h
    simp [hookRun, hookStep, initHook, h]

/-- C8 (witness): two consecutive renders requesting the unresolved key
`"A"` issue exactly one fetch. -/
theorem hookRender_dedup_witness :
    (hookRun [.render ["A"], .render ["A"]]).fetches = ["A"] :=
  hookRender_dedup.2 ["A"] "A" rfl

/-- C9: a one-dimensional asset's focus string is taken whole — it is not
split on `"|"` — so a 1-D key containing the separator round-trips through
`join('|')` and `focusedDimensionKeys` intact; only with more than one range
is the string split on `"|"` (dropping falsy pieces). -/
theorem focusedDimensionKeys_oneDim :
    (∀ p : String, p ≠ "" → focusedDimensionKeysOf 1 (some p) = [p]) ∧
    (∀ k : String, k ≠ "" → focusedDimensionKeysOf 1 (some (joinFocus [k])) = [k]) ∧
    (∀ n : Nat, 1 < n → ∀ p : String, p ≠ "" →
      focusedDimensionKeysOf n (some p) = (splitBar p).filter (fun s => s != "")) := by
  have hj : ∀ k : String, joinFocus [k] = k := fun k => rfl
  refine ⟨?_, ?_, ?_⟩
  · intro p hp
    simp [focusedDimensionKeysOf, hp]
  · intro k hk
    rw [hj]
    simp [focusedDimensionKeysOf, hk]
  · intro n hn p hp
    simp [focusedDimensionKeysOf, hp, hn]

/-- C9 (witness): the 1-D key `"a|b"`, which contains the reserved
separator, round-trips intact. -/
theorem focusedDimensionKeys_oneDim_witness :
    focusedDimensionKeysOf 1 (some (joinFocus ["a|b"])) = ["a|b"] :=
  focusedDimensionKeys_oneDim.2.1 "a|b" (by decide)

/-- C10: at dimension index 0 the focus-length test `focused.length >= 0`
holds vacuously, so the row state is always
`stateForPartialKey([dimensionKey])` — the `stateForSingleDimension` branch
is unreachable — and the whole dimension-0 row list is the same for every
focus vector. -/
theorem dimensionZero_rows (health : PartitionHealthData)
    (stateFilters : List PartitionState)
    (ranges : List PartitionHealthDimensionRange) (focused : List String)
    (range : PartitionHealthDimensionRange) (k : String) :
    rowState health focused ranges 0 k =
        stateForPartialKey health.dimensions health.stateByKey [k] ∧
      dimensionRowsForRange health stateFilters ranges focused range 0 =
        dimensionRowsForRange health stateFilters ranges [] range 0 := by
  constructor
  · simp [rowState]
  · have hcore : rowsCore health stateFilters ranges focused range 0 =
        rowsCore health stateFilters ranges [] range 0 := by
      unfold rowsCore
      rw [mapM_congr]
      intro x _
      simp [rowState]
    unfold dimensionRowsForRange
    cases timeRangeOf ranges with
    | none => exact hcore
    | some tr =>
        by_cases hsel : tr.selected.isEmpty <;> simp [hsel, hcore]

/-- C10 (witness): the dimension-0 row state on the concrete index is
`stateForPartialKey` of the key alone even under a non-empty focus
vector. -/
theorem dimensionZero_rows_witness :
    rowState exHealth6 ["2022-01-01"] [exRange60, exRange61] 0 "2022-01-01" =
        stateForPartialKey exHealth6.dimensions exHealth6.stateByKey ["2022-01-01"] ∧
      dimensionRowsForRange exHealth6 [.success] [exRange60, exRange61]
          ["2022-01-01"] exRange60 0 =
        dimensionRowsForRange exHealth6 [.success] [exRange60, exRange61]
          [] exRange60 0 :=
  dimensionZero_rows exHealth6 [.success] [exRange60, exRange61]
    ["2022-01-01"] exRange60 "2022-01-01"

end DagsterPartitions
